import Mathlib

/-!
Verification development for the `deep-bayesian-survival` repository.

This file gives a shallow embedding, in Lean 4, of the parts of the
repository that the checked properties are about:

* `src/tools/baysurv_trainer.py` — the Bayesian `Trainer` class: its
  epoch loop `train_and_evaluate`, its per-epoch methods `train`,
  `validate`, `test` and `cleanup`, its early-stopping state
  (`best_val_nll`, `best_ep`), its streaming `tf.keras.metrics.Mean`
  loss accumulators, its checkpointing, and the Monte-Carlo sampling it
  performs per batch for the uncertainty-aware model names.
* `src/tools/model_trainer.py` — the plain `Trainer` class (gradient
  application per batch).
* `src/model/train_sota_std_models.py` — the result rows the SOTA
  script records.
* `src/tools/data_loader.py` — `BaseDataLoader.prepare_data`.
* `src/tuning/tune_mlp_model.py` — the keyword arguments of the
  `Trainer` construction there.
* `src/misc/print_sota_calibration_results.py` — `map_model_name`.

Machine floats are modelled as exact rationals (`ℚ`); `np.inf` as the
`none` case of `Option ℚ`; `np.nan` used as a sentinel value as the
`none` case of `Option ℚ`.  Quantities produced by the TensorFlow model
itself (per-batch loss values, sampled logits, covariance
diagonals, ...) are inputs of the embedding: the claims under check are
about the control flow and the aggregation arithmetic of the repository
code, which the embedding translates statement by statement.
-/

/-! ## Streaming mean metric

`tf.keras.metrics.Mean` keeps a running total and count;
`update_state(x)` adds `x`, `result()` returns `total / count`
(`0` when the count is `0`, via `div_no_nan`), and `reset_states()`
zeroes both. -/

/-- Mean of a list of rationals; `0` for the empty list (this is what
`tf.keras.metrics.Mean.result()` returns when no value was added). -/
def listMean (l : List ℚ) : ℚ :=
  if l.length = 0 then 0 else l.sum / (l.length : ℚ)

/-- State of a `tf.keras.metrics.Mean` accumulator. -/
structure MeanMetric where
  total : ℚ
  count : Nat
deriving DecidableEq, Repr

/-- `Mean.update_state(x)`. -/
def MeanMetric.update (m : MeanMetric) (x : ℚ) : MeanMetric :=
  { total := m.total + x, count := m.count + 1 }

/-- `Mean.result()`: `total / count`, `0` when the count is zero. -/
def MeanMetric.result (m : MeanMetric) : ℚ :=
  if m.count = 0 then 0 else m.total / (m.count : ℚ)

/-- `Mean.reset_states()` / the freshly constructed metric. -/
def MeanMetric.resetStates : MeanMetric :=
  { total := 0, count := 0 }

theorem foldl_update_eq (l : List ℚ) (m : MeanMetric) :
    l.foldl MeanMetric.update m =
      { total := m.total + l.sum, count := m.count + l.length } := by
  induction l generalizing m with
  | nil => simp
  | cons a t ih =>
      simp only [List.foldl_cons, ih, MeanMetric.update, List.sum_cons,
        List.length_cons, MeanMetric.mk.injEq]
      constructor
      · ring
      · omega

theorem resetFold_result (l : List ℚ) :
    (l.foldl MeanMetric.update MeanMetric.resetStates).result = listMean l := by
  simp [foldl_update_eq, MeanMetric.result, MeanMetric.resetStates, listMean]

/-! ## The Bayesian trainer epoch loop (`baysurv_trainer.py`)

The loop-level behaviour of `Trainer.train_and_evaluate` depends on the
per-batch loss values produced by the model, not on how they were
produced; the configuration below therefore carries, for every epoch,
the list of per-batch loss values that `train`/`validate`/`test` feed
into the corresponding `Mean` accumulator during that epoch (epochs are
numbered from 1, as in the Python `range(1, num_epochs+1)`). -/

/-- Configuration and abstract inputs of a `Trainer` run
(`baysurv_trainer.py`, `__init__`). `hasValid`/`hasTest` record whether
`valid_dataset`/`test_dataset` are not `None`. -/
structure TrainConfig where
  numEpochs : Nat
  earlyStop : Bool
  patience : Int
  hasValid : Bool
  hasTest : Bool
  trainBatches : Nat → List ℚ
  validBatches : Nat → List ℚ
  testBatches : Nat → List ℚ

/-- The mutable state of a `Trainer` object that the epoch loop touches
(lines 26-40 of `baysurv_trainer.py`).  `bestValNll = none` models the
initial `np.inf`. -/
structure TrainerState where
  trainLossMetric : MeanMetric
  validLossMetric : MeanMetric
  testLossMetric : MeanMetric
  trainLossScores : List ℚ
  validLossScores : List ℚ
  testLossScores : List ℚ
  bestValNll : Option ℚ
  bestEp : Int
  checkpointsSaved : Nat
deriving DecidableEq, Repr

/-- State of a freshly constructed `Trainer`
(`best_val_nll = np.inf`, `best_ep = -1`, empty score lists). -/
def initState : TrainerState :=
  { trainLossMetric := MeanMetric.resetStates
    validLossMetric := MeanMetric.resetStates
    testLossMetric := MeanMetric.resetStates
    trainLossScores := []
    validLossScores := []
    testLossScores := []
    bestValNll := none
    bestEp := -1
    checkpointsSaved := 0 }

/-- `self.best_val_nll > epoch_loss` where `best_val_nll` may be the
initial `np.inf` (`none`). -/
def bestGt (b : Option ℚ) (x : ℚ) : Bool :=
  match b with
  | none => true
  | some v => x < v

/-- `Trainer.train(epoch)` (lines 57-100): accumulate the per-batch
losses in `train_loss_metric`, append `result()` to
`train_loss_scores`, and `self.manager.save()` one checkpoint. -/
def trainEpoch (cfg : TrainConfig) (e : Nat) (s : TrainerState) : TrainerState :=
  let m := (cfg.trainBatches e).foldl MeanMetric.update s.trainLossMetric
  { s with
      trainLossMetric := m
      trainLossScores := s.trainLossScores ++ [m.result]
      checkpointsSaved := s.checkpointsSaved + 1 }

/-- `Trainer.validate(epoch)` (lines 102-144): accumulate the per-batch
losses in `valid_loss_metric`, append `result()` to
`valid_loss_scores`, then — only when `early_stop` is set — update
`best_val_nll`/`best_ep` and return whether
`epoch - best_ep > patience`. -/
def validateEpoch (cfg : TrainConfig) (e : Nat) (s : TrainerState) :
    TrainerState × Bool :=
  let m := (cfg.validBatches e).foldl MeanMetric.update s.validLossMetric
  let epochLoss := m.result
  let s1 := { s with
      validLossMetric := m
      validLossScores := s.validLossScores ++ [epochLoss] }
  if cfg.earlyStop then
    let s2 := if bestGt s1.bestValNll epochLoss then
        { s1 with bestValNll := some epochLoss, bestEp := (e : Int) }
      else s1
    (s2, decide ((e : Int) - s2.bestEp > cfg.patience))
  else
    (s1, false)

/-- `Trainer.test()` (lines 146-183), restricted to its loss-score
effect: accumulate the per-batch losses in `test_loss_metric` and
append `result()` to `test_loss_scores`.  (Its `test_variance` effect
is modelled separately below, at batch granularity.) -/
def testEpoch (cfg : TrainConfig) (e : Nat) (s : TrainerState) : TrainerState :=
  let m := (cfg.testBatches e).foldl MeanMetric.update s.testLossMetric
  { s with
      testLossMetric := m
      testLossScores := s.testLossScores ++ [m.result] }

/-- `Trainer.cleanup()` (lines 185-188): reset all three loss metrics. -/
def cleanup (s : TrainerState) : TrainerState :=
  { s with
      trainLossMetric := MeanMetric.resetStates
      validLossMetric := MeanMetric.resetStates
      testLossMetric := MeanMetric.resetStates }

/-- One iteration of the `for epoch in range(1, num_epochs+1)` loop of
`train_and_evaluate` (lines 44-55): `train`, then `validate` when a
validation set is present (producing `stop_training`), then `test` when
a test set is present, then `cleanup` (which runs both on the
early-stop path and on the normal path).  The returned flag is the
`stop_training` value after this iteration. -/
def epochStep (cfg : TrainConfig) (e : Nat) (s : TrainerState) :
    TrainerState × Bool :=
  let s1 := trainEpoch cfg e s
  let pr := if cfg.hasValid then validateEpoch cfg e s1 else (s1, false)
  let s3 := if cfg.hasTest then testEpoch cfg e pr.1 else pr.1
  (cleanup s3, pr.2)

/-- The epoch loop, with `done` epochs already executed and `fuel`
iterations remaining; the current epoch number is `done + 1`.  The
loop `break`s right after the iteration whose `stop_training` came back
true. -/
def runFrom (cfg : TrainConfig) : Nat → Nat → TrainerState → TrainerState
  | _, 0, s => s
  | done, fuel + 1, s =>
      let p := epochStep cfg (done + 1) s
      if p.2 then p.1 else runFrom cfg (done + 1) fuel p.1

/-- `Trainer.train_and_evaluate()` (lines 42-55). -/
def train_and_evaluate (cfg : TrainConfig) : TrainerState :=
  runFrom cfg 0 cfg.numEpochs initState

/-- Number of loop iterations (epochs) executed, counted alongside
`runFrom`. -/
def executedFrom (cfg : TrainConfig) : Nat → Nat → TrainerState → Nat
  | _, 0, _ => 0
  | done, fuel + 1, s =>
      let p := epochStep cfg (done + 1) s
      if p.2 then 1 else 1 + executedFrom cfg (done + 1) fuel p.1

/-- Number of epochs a `train_and_evaluate` run executes. -/
def executedEpochs (cfg : TrainConfig) : Nat :=
  executedFrom cfg 0 cfg.numEpochs initState

/-! ### The early-stopping trace, written directly from the update rule

`valLossAt cfg e` is the mean validation loss of epoch `e` (the value
of `valid_loss_metric.result()` at the end of `validate(e)`, given that
`cleanup` reset the metric at the end of epoch `e - 1`).  `esTrace` is
the `(best_val_nll, best_ep)` pair after epoch `e`, evolved by the rule
of lines 135-137: the running minimum is updated exactly when the
epoch's mean validation loss is strictly below it. -/

/-- Mean validation loss of epoch `e`. -/
def valLossAt (cfg : TrainConfig) (e : Nat) : ℚ :=
  listMean (cfg.validBatches e)

/-- `(best_val_nll, best_ep)` after `e` epochs of validation updates. -/
def esTrace (cfg : TrainConfig) : Nat → Option ℚ × Int
  | 0 => (none, -1)
  | e + 1 =>
      let p := esTrace cfg e
      if bestGt p.1 (valLossAt cfg (e + 1)) then
        (some (valLossAt cfg (e + 1)), ((e : Int) + 1))
      else p

/-- The early-stopping condition `epoch - best_ep > patience` at the
end of epoch `e` (line 138), evaluated on the trace. -/
def condAt (cfg : TrainConfig) (e : Nat) : Bool :=
  decide ((e : Int) - (esTrace cfg e).2 > cfg.patience)

/-- Whether the loop iteration of epoch `e` ends with
`stop_training = True`: a validation set must be present, `early_stop`
must be set, and the condition of line 138 must hold. -/
def stopAt (cfg : TrainConfig) (e : Nat) : Bool :=
  cfg.hasValid && (cfg.earlyStop && condAt cfg e)

/-- The `(best_val_nll, best_ep)` pair actually held by the trainer
after `e` executed epochs: it follows the trace exactly when both a
validation set is present and `early_stop` is set, and otherwise stays
at its initial value. -/
def esPairAt (cfg : TrainConfig) (e : Nat) : Option ℚ × Int :=
  if cfg.earlyStop && cfg.hasValid then esTrace cfg e else (none, -1)

/-- Loop invariant at the start of the iteration for epoch `e + 1`,
after `e` executed epochs: all three metrics are reset (by `__init__`
or by the `cleanup` of the previous iteration) and the early-stopping
pair agrees with `esPairAt`. -/
def Ready (cfg : TrainConfig) (e : Nat) (s : TrainerState) : Prop :=
  s.trainLossMetric = MeanMetric.resetStates ∧
  s.validLossMetric = MeanMetric.resetStates ∧
  s.testLossMetric = MeanMetric.resetStates ∧
  (s.bestValNll, s.bestEp) = esPairAt cfg e

theorem ready_init (cfg : TrainConfig) : Ready cfg 0 initState := by
  refine ⟨rfl, rfl, rfl, ?_⟩
  simp [initState, esPairAt, esTrace]

/-- Full characterization of one loop iteration from a `Ready` state:
the iteration appends the epoch's mean losses to the score lists
(validation/test only when the corresponding dataset is present), saves
exactly one checkpoint, leaves the metrics reset, advances the
early-stopping pair along the trace, and returns
`stop_training = stopAt cfg (e + 1)`. -/
theorem epochStep_eq (cfg : TrainConfig) (e : Nat) (s : TrainerState)
    (hs : Ready cfg e s) :
    epochStep cfg (e + 1) s =
      ({ trainLossMetric := MeanMetric.resetStates
         validLossMetric := MeanMetric.resetStates
         testLossMetric := MeanMetric.resetStates
         trainLossScores :=
           s.trainLossScores ++ [listMean (cfg.trainBatches (e + 1))]
         validLossScores :=
           s.validLossScores ++
             (if cfg.hasValid then [listMean (cfg.validBatches (e + 1))] else [])
         testLossScores :=
           s.testLossScores ++
             (if cfg.hasTest then [listMean (cfg.testBatches (e + 1))] else [])
         bestValNll := (esPairAt cfg (e + 1)).1
         bestEp := (esPairAt cfg (e + 1)).2
         checkpointsSaved := s.checkpointsSaved + 1 }, stopAt cfg (e + 1)) := by
  obtain ⟨ht, hv, htest, hbest⟩ := hs
  have hb1 : s.bestValNll = (esPairAt cfg e).1 := by
    rw [← hbest]
  have hb2 : s.bestEp = (esPairAt cfg e).2 := by
    rw [← hbest]
  cases hV : cfg.hasValid with
  | false =>
      cases hE : cfg.earlyStop <;> cases hT : cfg.hasTest <;>
        simp [epochStep, trainEpoch, testEpoch, cleanup, stopAt, esPairAt,
          hV, hE, hT, ht, hv, htest, resetFold_result, hb1, hb2]
  | true =>
      cases hE : cfg.earlyStop with
      | false =>
          cases hT : cfg.hasTest <;>
            simp [epochStep, trainEpoch, validateEpoch, testEpoch, cleanup,
              stopAt, esPairAt, hV, hE, hT, ht, hv, htest, resetFold_result,
              hb1, hb2]
      | true =>
          have hpair : (s.bestValNll, s.bestEp) = esTrace cfg e := by
            rw [hbest]; simp [esPairAt, hV, hE]
          have hb1' : s.bestValNll = (esTrace cfg e).1 := by rw [← hpair]
          have hb2' : s.bestEp = (esTrace cfg e).2 := by rw [← hpair]
          have htr : esTrace cfg (e + 1) =
              (if bestGt (esTrace cfg e).1 (listMean (cfg.validBatches (e + 1))) then
                (some (listMean (cfg.validBatches (e + 1))), ((e : Int) + 1))
              else esTrace cfg e) := by
            rfl
          cases hg : bestGt (esTrace cfg e).1 (listMean (cfg.validBatches (e + 1))) <;>
            cases hT : cfg.hasTest <;>
              simp [epochStep, trainEpoch, validateEpoch, testEpoch, cleanup,
                stopAt, esPairAt, condAt, hV, hE, hT, ht, hv, htest,
                resetFold_result, hb1', hb2', htr, hg, valLossAt]

/-- Pure count of the epochs the loop executes when started after
`done` epochs with `fuel` iterations remaining: it advances until the
first epoch whose iteration sets `stop_training`. -/
def execPure (cfg : TrainConfig) : Nat → Nat → Nat
  | _, 0 => 0
  | done, fuel + 1 =>
      if stopAt cfg (done + 1) then 1 else 1 + execPure cfg (done + 1) fuel

theorem execPure_le (cfg : TrainConfig) :
    ∀ fuel done, execPure cfg done fuel ≤ fuel := by
  intro fuel
  induction fuel with
  | zero => intro done; simp [execPure]
  | succ f ih =>
      intro done
      by_cases h : stopAt cfg (done + 1) = true
      · simp [execPure, h]
      · have hrw : execPure cfg done (f + 1) = 1 + execPure cfg (done + 1) f := by
          simp [execPure, h]
        have := ih (done + 1)
        omega

theorem execPure_all (cfg : TrainConfig)
    (h : ∀ e, stopAt cfg e = false) :
    ∀ fuel done, execPure cfg done fuel = fuel := by
  intro fuel
  induction fuel with
  | zero => intro done; simp [execPure]
  | succ f ih =>
      intro done
      simp [execPure, h (done + 1), ih (done + 1)]
      omega

theorem execPure_lt_iff (cfg : TrainConfig) :
    ∀ fuel done, execPure cfg done fuel < fuel ↔
      ∃ e, done + 1 ≤ e ∧ e < done + fuel ∧ stopAt cfg e = true := by
  intro fuel
  induction fuel with
  | zero =>
      intro done
      constructor
      · intro h; omega
      · rintro ⟨e, h1, h2, _⟩; omega
  | succ f ih =>
      intro done
      by_cases h : stopAt cfg (done + 1) = true
      · simp only [execPure, h, if_true]
        constructor
        · intro hlt
          exact ⟨done + 1, by omega, by omega, h⟩
        · rintro ⟨e, h1, h2, _⟩; omega
      · have hrw : execPure cfg done (f + 1) = 1 + execPure cfg (done + 1) f := by
          simp [execPure, h]
        rw [hrw]
        have hiff := ih (done + 1)
        constructor
        · intro hlt
          have hlt2 : execPure cfg (done + 1) f < f := by omega
          obtain ⟨e, h1, h2, h3⟩ := hiff.mp hlt2
          exact ⟨e, by omega, by omega, h3⟩
        · rintro ⟨e, h1, h2, h3⟩
          have he : done + 2 ≤ e := by
            rcases Nat.lt_or_ge (done + 1) e with h4 | h4
            · omega
            · have heq : e = done + 1 := by omega
              rw [heq] at h3
              exact absurd h3 h
          have hlt2 : execPure cfg (done + 1) f < f :=
            hiff.mpr ⟨e, by omega, by omega, h3⟩
          omega

/-- Full run characterization from a `Ready` state: the loop executes
`execPure` epochs, appends one per-epoch mean per executed epoch to
each score list (validation/test only when the dataset is present), and
saves one checkpoint per executed epoch. -/
theorem runFrom_eq (cfg : TrainConfig) :
    ∀ fuel done s, Ready cfg done s →
      (runFrom cfg done fuel s).trainLossScores =
        s.trainLossScores ++
          (List.range' (done + 1) (execPure cfg done fuel)).map
            (fun e => listMean (cfg.trainBatches e)) ∧
      (runFrom cfg done fuel s).validLossScores =
        s.validLossScores ++
          (if cfg.hasValid then
            (List.range' (done + 1) (execPure cfg done fuel)).map
              (fun e => listMean (cfg.validBatches e))
          else []) ∧
      (runFrom cfg done fuel s).testLossScores =
        s.testLossScores ++
          (if cfg.hasTest then
            (List.range' (done + 1) (execPure cfg done fuel)).map
              (fun e => listMean (cfg.testBatches e))
          else []) ∧
      (runFrom cfg done fuel s).checkpointsSaved =
        s.checkpointsSaved + execPure cfg done fuel ∧
      executedFrom cfg done fuel s = execPure cfg done fuel := by
  intro fuel
  induction fuel with
  | zero =>
      intro done s _
      simp [runFrom, executedFrom, execPure]
  | succ f ih =>
      intro done s h
      have hstep := epochStep_eq cfg done s h
      by_cases hstop : stopAt cfg (done + 1) = true
      · have hrun : runFrom cfg done (f + 1) s = (epochStep cfg (done + 1) s).1 := by
          simp [runFrom, hstep, hstop]
        have hexec : executedFrom cfg done (f + 1) s = 1 := by
          simp [executedFrom, hstep, hstop]
        have hpure : execPure cfg done (f + 1) = 1 := by
          simp [execPure, hstop]
        rw [hrun, hexec, hpure, hstep]
        simp [List.range'_succ]
      · have hrun : runFrom cfg done (f + 1) s =
            runFrom cfg (done + 1) f (epochStep cfg (done + 1) s).1 := by
          simp [runFrom, hstep, hstop]
        have hexec : executedFrom cfg done (f + 1) s =
            1 + executedFrom cfg (done + 1) f (epochStep cfg (done + 1) s).1 := by
          simp [executedFrom, hstep, hstop]
        have hpure : execPure cfg done (f + 1) =
            1 + execPure cfg (done + 1) f := by
          simp [execPure, hstop]
        have hready : Ready cfg (done + 1) (epochStep cfg (done + 1) s).1 := by
          rw [hstep]
          exact ⟨rfl, rfl, rfl, rfl⟩
        obtain ⟨ih1, ih2, ih3, ih4, ih5⟩ :=
          ih (done + 1) (epochStep cfg (done + 1) s).1 hready
        have hrange : List.range' (done + 1) (1 + execPure cfg (done + 1) f) =
            (done + 1) :: List.range' (done + 2) (execPure cfg (done + 1) f) := by
          rw [Nat.add_comm 1 (execPure cfg (done + 1) f), List.range'_succ]
        refine ⟨?_, ?_, ?_, ?_, ?_⟩
        · rw [hrun, ih1, hstep, hpure, hrange]
          simp
        · rw [hrun, ih2, hstep, hpure, hrange]
          by_cases hv : cfg.hasValid = true <;> simp [hv]
        · rw [hrun, ih3, hstep, hpure, hrange]
          by_cases htst : cfg.hasTest = true <;> simp [htst]
        · rw [hexec] at *
          rw [hrun, ih4, hstep, hpure]
          simp
          omega
        · rw [hexec, ih5, hpure]

theorem executedEpochs_eq (cfg : TrainConfig) :
    executedEpochs cfg = execPure cfg 0 cfg.numEpochs :=
  (runFrom_eq cfg cfg.numEpochs 0 initState (ready_init cfg)).2.2.2.2

/-- `tf.train.Checkpoint(optimizer=self.optimizer, model=self.model)`
(line 39 of `baysurv_trainer.py`): the objects a saved checkpoint
contains. -/
def checkpointContents : List String :=
  ["optimizer", "model"]

/-- C4.  After every completed training epoch — including the epoch at
which early stopping fires — exactly one checkpoint containing the
model and the optimizer is saved through the `CheckpointManager`
(`self.manager.save()` at the end of `Trainer.train`, which runs before
`validate` can set `stop_training`), so a run that executes `E` epochs
saves exactly `E` checkpoints; `E` never exceeds `num_epochs`, so the
manager (whose `max_to_keep` is `num_epochs`) keeps them all. -/
theorem claim_C4_checkpoints (cfg : TrainConfig) :
    (train_and_evaluate cfg).checkpointsSaved = executedEpochs cfg ∧
    executedEpochs cfg ≤ cfg.numEpochs ∧
    checkpointContents = ["optimizer", "model"] := by
  have h := (runFrom_eq cfg cfg.numEpochs 0 initState (ready_init cfg)).2.2.2.1
  refine ⟨?_, ?_, rfl⟩
  · rw [train_and_evaluate] at *
    rw [h, executedEpochs_eq]
    simp [initState]
  · rw [executedEpochs_eq]
    exact execPure_le cfg cfg.numEpochs 0

/-- C3.  Every loss-metric accumulator is reset at the end of each
epoch iteration (`cleanup` runs on both the early-stop path and the
normal path), so each appended per-epoch score is the mean over only
that epoch's batches; consequently, when both validation and test
datasets are supplied, after `train_and_evaluate` returns the three
score lists hold exactly one entry per executed epoch — including the
epoch at which early stopping triggered, whose test entry is appended
before the loop breaks — and the entry for epoch `e` is the mean of
epoch `e`'s batch losses. -/
theorem claim_C3_scores (cfg : TrainConfig)
    (hV : cfg.hasValid = true) (hT : cfg.hasTest = true) :
    (train_and_evaluate cfg).trainLossScores =
      (List.range' 1 (executedEpochs cfg)).map
        (fun e => listMean (cfg.trainBatches e)) ∧
    (train_and_evaluate cfg).validLossScores =
      (List.range' 1 (executedEpochs cfg)).map
        (fun e => listMean (cfg.validBatches e)) ∧
    (train_and_evaluate cfg).testLossScores =
      (List.range' 1 (executedEpochs cfg)).map
        (fun e => listMean (cfg.testBatches e)) ∧
    (train_and_evaluate cfg).trainLossScores.length = executedEpochs cfg ∧
    (train_and_evaluate cfg).validLossScores.length = executedEpochs cfg ∧
    (train_and_evaluate cfg).testLossScores.length = executedEpochs cfg := by
  obtain ⟨h1, h2, h3, _, _⟩ :=
    runFrom_eq cfg cfg.numEpochs 0 initState (ready_init cfg)
  rw [executedEpochs_eq]
  rw [train_and_evaluate] at *
  rw [h1, h2, h3]
  simp [initState, hV, hT]

/-- Concrete run used to exercise `claim_C3_scores`: three epochs
requested, validation loss rises after epoch 1 with `patience = 0`, so
early stopping fires at the end of epoch 2 and only two epochs run. -/
def cfgStopEarly : TrainConfig :=
  { numEpochs := 3
    earlyStop := true
    patience := 0
    hasValid := true
    hasTest := true
    trainBatches := fun e => [(e : ℚ), (e : ℚ) + 2]
    validBatches := fun e => [(e : ℚ)]
    testBatches := fun e => [(e : ℚ) + 1] }

theorem cfgStopEarly_executed : executedEpochs cfgStopEarly = 2 := by
  rw [executedEpochs_eq]
  norm_num [execPure, stopAt, condAt, esTrace, valLossAt, bestGt,
    cfgStopEarly, listMean]

theorem claim_C3_scores_witness :
    cfgStopEarly.hasValid = true ∧ cfgStopEarly.hasTest = true ∧
    executedEpochs cfgStopEarly = 2 ∧
    (train_and_evaluate cfgStopEarly).trainLossScores =
      (List.range' 1 (executedEpochs cfgStopEarly)).map
        (fun e => listMean (cfgStopEarly.trainBatches e)) :=
  ⟨rfl, rfl, cfgStopEarly_executed, (claim_C3_scores cfgStopEarly rfl rfl).1⟩

/-! ### Early stopping (claim C1)

The claim reads: training stops before `num_epochs` exactly when, at
the end of some epoch `e`, `e - best_ep > patience`.  The `break` of
line 54 is reached whenever the condition holds at the end of an
executed epoch, but when that first happens at `e = num_epochs` itself
the run has already executed all `num_epochs` epochs, so it does not
stop before `num_epochs`: the equivalence only holds with `e`
restricted to `e < num_epochs`.  `cfgC1` below realizes the failing
edge case. -/

/-- Two requested epochs, `patience = 0`, constant validation loss:
`best_ep` stays 1, the stop condition first holds at the end of
epoch 2 = `num_epochs`, and both epochs are executed. -/
def cfgC1 : TrainConfig :=
  { numEpochs := 2
    earlyStop := true
    patience := 0
    hasValid := true
    hasTest := false
    trainBatches := fun _ => [1]
    validBatches := fun _ => [1]
    testBatches := fun _ => [] }

/-- Counterexample to C1 as stated: in the run of `cfgC1` the early
stopping condition `e - best_ep > patience` holds at the end of the
executed epoch `e = 2 = num_epochs` (so the claimed "exactly when"
would force the run to stop before `num_epochs`), yet the run executes
all `num_epochs` epochs. -/
theorem claim_C1_counterexample :
    cfgC1.earlyStop = true ∧ cfgC1.hasValid = true ∧
    condAt cfgC1 2 = true ∧ (1 ≤ 2 ∧ 2 ≤ cfgC1.numEpochs) ∧
    executedEpochs cfgC1 = cfgC1.numEpochs ∧
    ¬ executedEpochs cfgC1 < cfgC1.numEpochs := by
  have hc : condAt cfgC1 2 = true := by
    norm_num [condAt, esTrace, valLossAt, bestGt, cfgC1, listMean]
  have he : executedEpochs cfgC1 = 2 := by
    rw [executedEpochs_eq]
    norm_num [execPure, stopAt, condAt, esTrace, valLossAt, bestGt,
      cfgC1, listMean]
  exact ⟨rfl, rfl, hc, ⟨by omega, by decide⟩,
    by rw [he]; rfl, by rw [he]; decide⟩

/-- C1 as amended (the amendment restricts the witnessing epoch to
`e < num_epochs`; everything else is as claimed).  With `early_stop`
enabled and a validation dataset supplied, training stops before
`num_epochs` exactly when at the end of some epoch `e < num_epochs`
the condition `e - best_ep > patience` holds, where `best_ep` is the
most recent epoch that strictly lowered the running minimum of the
mean validation loss (`esTrace`, started at `(np.inf, -1)`); if no
such epoch occurs, all `num_epochs` epochs are executed; and with
`early_stop` disabled or no validation dataset the loop always runs
all `num_epochs` epochs. -/
theorem claim_C1_early_stopping (cfg : TrainConfig) :
    (cfg.earlyStop = true → cfg.hasValid = true →
      (executedEpochs cfg < cfg.numEpochs ↔
        ∃ e, 1 ≤ e ∧ e < cfg.numEpochs ∧ condAt cfg e = true)) ∧
    (cfg.earlyStop = false ∨ cfg.hasValid = false →
      executedEpochs cfg = cfg.numEpochs) ∧
    executedEpochs cfg ≤ cfg.numEpochs := by
  refine ⟨?_, ?_, ?_⟩
  · intro hE hV
    rw [executedEpochs_eq, execPure_lt_iff cfg cfg.numEpochs 0]
    have hstop : ∀ e, stopAt cfg e = condAt cfg e := by
      intro e
      simp [stopAt, hE, hV]
    constructor
    · rintro ⟨e, h1, h2, h3⟩
      exact ⟨e, by omega, by omega, by rw [← hstop e]; exact h3⟩
    · rintro ⟨e, h1, h2, h3⟩
      exact ⟨e, by omega, by omega, by rw [hstop e]; exact h3⟩
  · intro hdis
    rw [executedEpochs_eq]
    refine execPure_all cfg ?_ cfg.numEpochs 0
    intro e
    rcases hdis with hE | hV
    · simp [stopAt, hE]
    · simp [stopAt, hV]
  · rw [executedEpochs_eq]
    exact execPure_le cfg cfg.numEpochs 0

theorem claim_C1_early_stopping_witness :
    executedEpochs cfgStopEarly < cfgStopEarly.numEpochs ↔
      ∃ e, 1 ≤ e ∧ e < cfgStopEarly.numEpochs ∧ condAt cfgStopEarly e = true :=
  (claim_C1_early_stopping cfgStopEarly).1 rfl rfl

/-! ## Per-batch model evaluation (`train` / `validate` / `test`)

`baysurv_trainer.py` branches per batch on `self.model_name`.  Each
call of the model on the batch is represented by an oracle indexed by
call number: `raw` is the model output viewed as a vector (for SNGP,
the first component of its output pair), `sampleVal` is a draw from the
returned predictive distribution (`y_pred.sample()`), and `covDiag` is
the diagonal of the covariance matrix SNGP returns as second component.
The embedding threads an explicit call counter so that "the model is
evaluated `n` times" is a property of the translation, not an assumed
count. -/

/-- One forward pass of the model on the current batch. -/
structure ModelOutput where
  raw : List ℚ
  sampleVal : List ℚ
  covDiag : List ℚ
deriving DecidableEq, Repr

/-- `["MLP-ALEA", "VI", "VI-EPI", "MCD-EPI", "MCD"]` (lines 61, 106,
150): the model names that get Monte-Carlo sampling. -/
def mcNames : List String :=
  ["MLP-ALEA", "VI", "VI-EPI", "MCD-EPI", "MCD"]

/-- `["MLP-ALEA", "VI", "MCD"]` (lines 68, 110, 154): the model names
whose forward pass returns a distribution that is then `.sample()`d;
the remaining Monte-Carlo names (`VI-EPI`, `MCD-EPI`) use the raw
output. -/
def sampleNames : List String :=
  ["MLP-ALEA", "VI", "MCD"]

/-- The Monte-Carlo collection loop (`for i in range(runs)` at lines
66-72, 109-113, 153-157): each iteration makes exactly one model call
and keeps either a sample or the raw output.  Returns the collected
rows of `logits_cpd` together with the advanced call counter. -/
def mcCollect (name : String) (oracle : Nat → ModelOutput) :
    Nat → Nat → List (List ℚ) × Nat
  | 0, k => ([], k)
  | r + 1, k =>
      let y_pred := oracle k
      let out := if name ∈ sampleNames then y_pred.sampleVal else y_pred.raw
      let rest := mcCollect name oracle r (k + 1)
      (out :: rest.1, rest.2)

/-- Rows collected by `mcCollect` starting from call counter 0. -/
def mcSamples (name : String) (oracle : Nat → ModelOutput) (runs : Nat) :
    List (List ℚ) :=
  (mcCollect name oracle runs 0).1

theorem mcCollect_count (name : String) (oracle : Nat → ModelOutput) :
    ∀ r k, (mcCollect name oracle r k).2 = k + r := by
  intro r
  induction r with
  | zero => intro k; simp [mcCollect]
  | succ n ih =>
      intro k
      simp [mcCollect, ih (k + 1)]
      omega

theorem mcCollect_rows (name : String) (oracle : Nat → ModelOutput) :
    ∀ r k, (mcCollect name oracle r k).1 =
      (List.range' k r).map (fun i =>
        if name ∈ sampleNames then (oracle i).sampleVal else (oracle i).raw) := by
  intro r
  induction r with
  | zero => intro k; simp [mcCollect]
  | succ n ih =>
      intro k
      rw [List.range'_succ]
      simp [mcCollect, ih (k + 1)]

/-- `tf.reduce_mean(logits_cpd, axis=0)`: per-example mean over the
Monte-Carlo rows (the subsequent `tf.transpose` only reshapes). -/
def colMeans (m : List (List ℚ)) : List ℚ :=
  m.transpose.map listMean

/-- Population variance of a list
(`tf.math.reduce_variance` semantics). -/
def listVar (l : List ℚ) : ℚ :=
  listMean (l.map (fun x => (x - listMean l) ^ 2))

/-- `tf.math.reduce_variance(logits_cpd, axis=0)`: per-example variance
across the Monte-Carlo rows. -/
def colVars (m : List (List ℚ)) : List ℚ :=
  m.transpose.map listVar

/-- What `self.loss_fn` receives as `y_pred`. -/
inductive LossArg where
  | meanLogits : List ℚ → LossArg
  | sampleMatrix : List (List ℚ) → LossArg
  | single : List ℚ → LossArg
deriving DecidableEq, Repr

/-- One batch of `Trainer.train` (lines 58-96): for a Monte-Carlo name,
`runs = n_samples_train` model calls collect `logits_cpd`; with a
`CoxPHLoss` the loss is taken on the per-example mean, for `VI`/`VI-EPI`
the Cox loss is taken on the matrix (the KL term of line 80 is added to
the gradient loss only), and otherwise on the matrix; for every other
name a single forward pass feeds the loss.  Returns what the loss was
computed on and the number of model calls. -/
def trainBatchSim (name : String) (isCoxPH : Bool) (nSamplesTrain : Nat)
    (oracle : Nat → ModelOutput) : LossArg × Nat :=
  if name ∈ mcNames then
    let c := mcCollect name oracle nSamplesTrain 0
    if isCoxPH then (LossArg.meanLogits (colMeans c.1), c.2)
    else if name = "VI" ∨ name = "VI-EPI" then (LossArg.sampleMatrix c.1, c.2)
    else (LossArg.sampleMatrix c.1, c.2)
  else if name = "SNGP" then (LossArg.single (oracle 0).raw, 1)
  else (LossArg.single (oracle 0).raw, 1)

/-- One batch of `Trainer.validate` (lines 104-128): as in `train`, but
when the loss is not a `CoxPHLoss` the code performs one extra forward
pass (`logits = self.model(x, training=False)`, line 118) whose result
is not used by the loss, which is computed on `logits_cpd`. -/
def validateBatchSim (name : String) (isCoxPH : Bool) (nSamplesValid : Nat)
    (oracle : Nat → ModelOutput) : LossArg × Nat :=
  if name ∈ mcNames then
    let c := mcCollect name oracle nSamplesValid 0
    if isCoxPH then (LossArg.meanLogits (colMeans c.1), c.2)
    else (LossArg.sampleMatrix c.1, c.2 + 1)
  else if name = "SNGP" then (LossArg.single (oracle 0).raw, 1)
  else (LossArg.single (oracle 0).raw, 1)

/-- Result of one batch of `Trainer.test` (lines 148-176): what the
loss was computed on, the value appended to `batch_variances`, and the
number of model calls. -/
structure TestBatchRes where
  lossArg : LossArg
  variance : ℚ
  calls : Nat
deriving DecidableEq, Repr

/-- One batch of `Trainer.test`: Monte-Carlo names additionally append
`np.mean(tf.math.reduce_variance(logits_cpd, axis=0, keepdims=True))`
to `batch_variances` (line 159); SNGP appends the mean of the diagonal
of the returned covariance matrix (line 169); every other name appends
`0` (line 174). -/
def testBatchSim (name : String) (isCoxPH : Bool) (nSamplesTest : Nat)
    (oracle : Nat → ModelOutput) : TestBatchRes :=
  if name ∈ mcNames then
    let c := mcCollect name oracle nSamplesTest 0
    let v := listMean (colVars c.1)
    if isCoxPH then
      { lossArg := LossArg.meanLogits (colMeans c.1), variance := v, calls := c.2 }
    else
      { lossArg := LossArg.sampleMatrix c.1, variance := v, calls := c.2 }
  else if name = "SNGP" then
    { lossArg := LossArg.single (oracle 0).raw
      variance := listMean (oracle 0).covDiag
      calls := 1 }
  else
    { lossArg := LossArg.single (oracle 0).raw, variance := 0, calls := 1 }

/-- A trivial oracle used for concrete instances. -/
def oracle0 : Nat → ModelOutput :=
  fun _ => { raw := [0], sampleVal := [0], covDiag := [0] }

/-- Counterexample to C2 as stated: for the Monte-Carlo name `VI-EPI`
with a loss that is not a `CoxPHLoss`, one batch of `validate` makes
`n_samples_valid + 1` model calls, not `n_samples_valid`: the extra
forward pass of line 118 (`logits = self.model(x, training=False)`) is
executed even though the loss is computed on `logits_cpd`. -/
theorem claim_C2_counterexample :
    "VI-EPI" ∈ mcNames ∧
    (validateBatchSim "VI-EPI" false 3 oracle0).2 = 4 ∧
    (3 : Nat) ≠ 4 := by
  refine ⟨by decide, ?_, by decide⟩
  have h := mcCollect_count "VI-EPI" oracle0 3 0
  simp [validateBatchSim, mcNames, h]

/-- C2 as amended (the amendment concerns only the `validate` call
count when the loss is not a `CoxPHLoss`: there the model is evaluated
`n_samples_valid + 1` times, the result of the extra call being
unused).  For a Monte-Carlo model name, `train` evaluates the model
exactly `n_samples_train` times per batch, `test` exactly
`n_samples_test` times, and `validate` exactly `n_samples_valid` times
when the loss is a `CoxPHLoss` and `n_samples_valid + 1` times
otherwise; the collected rows are samples from the predictive
distribution for `MLP-ALEA`/`VI`/`MCD` and raw outputs for
`VI-EPI`/`MCD-EPI`; with a `CoxPHLoss` the loss is computed on the
per-example mean over the collected rows in all three methods.  For
every other model name each method uses exactly one forward pass per
batch. -/
theorem claim_C2_sampling (name : String) (isCoxPH : Bool) (n : Nat)
    (oracle : Nat → ModelOutput) :
    (name ∈ mcNames →
      (trainBatchSim name isCoxPH n oracle).2 = n ∧
      (testBatchSim name isCoxPH n oracle).calls = n ∧
      (validateBatchSim name isCoxPH n oracle).2 =
        (if isCoxPH then n else n + 1) ∧
      mcSamples name oracle n =
        (List.range n).map (fun i =>
          if name ∈ sampleNames then (oracle i).sampleVal
          else (oracle i).raw) ∧
      (isCoxPH = true →
        (trainBatchSim name isCoxPH n oracle).1 =
          LossArg.meanLogits (colMeans (mcSamples name oracle n)) ∧
        (validateBatchSim name isCoxPH n oracle).1 =
          LossArg.meanLogits (colMeans (mcSamples name oracle n)) ∧
        (testBatchSim name isCoxPH n oracle).lossArg =
          LossArg.meanLogits (colMeans (mcSamples name oracle n)))) ∧
    (name ∉ mcNames →
      (trainBatchSim name isCoxPH n oracle).2 = 1 ∧
      (validateBatchSim name isCoxPH n oracle).2 = 1 ∧
      (testBatchSim name isCoxPH n oracle).calls = 1) := by
  have hcount := mcCollect_count name oracle n 0
  have hrows := mcCollect_rows name oracle n 0
  constructor
  · intro hmc
    have hrange : List.range' 0 n = List.range n := by
      rw [List.range_eq_range']
    refine ⟨?_, ?_, ?_, ?_, ?_⟩
    · cases isCoxPH <;> simp [trainBatchSim, hmc, hcount]
    · cases isCoxPH <;> simp [testBatchSim, hmc, hcount]
    · cases isCoxPH <;> simp [validateBatchSim, hmc, hcount]
    · rw [mcSamples, hrows, hrange]
    · intro hc
      subst hc
      refine ⟨?_, ?_, ?_⟩
      · simp [trainBatchSim, hmc, mcSamples]
      · simp [validateBatchSim, hmc, mcSamples]
      · simp [testBatchSim, hmc, mcSamples]
  · intro hmc
    by_cases hs : name = "SNGP"
    · subst hs
      simp [trainBatchSim, validateBatchSim, testBatchSim, mcNames]
    · simp [trainBatchSim, validateBatchSim, testBatchSim, hmc, hs]

theorem claim_C2_sampling_witness :
    (trainBatchSim "VI" true 2 oracle0).2 = 2 :=
  ((claim_C2_sampling "VI" true 2 oracle0).1 (by decide)).1

/-- The `test_variance` effect of one call of `Trainer.test` (lines
147, 159, 169, 174, 178-180): `batch_variances` receives one value per
test batch, and `float(np.mean(batch_variances))` is appended to
`self.test_variance` exactly when the batch list is non-empty.  Each
test batch is given by its own model-call oracle. -/
def testVarianceAppend (name : String) (isCoxPH : Bool) (nSamplesTest : Nat)
    (batches : List (Nat → ModelOutput)) : Option ℚ :=
  let bvs := batches.map (fun b => (testBatchSim name isCoxPH nSamplesTest b).variance)
  if 0 < bvs.length then some (listMean bvs) else none

theorem listMean_zeroes (l : List ℚ) (h : ∀ x ∈ l, x = 0) : listMean l = 0 := by
  rcases l with _ | ⟨a, t⟩
  · simp [listMean]
  · have hsum : (a :: t).sum = 0 := by
      rw [List.sum_eq_zero]
      exact h
    simp [listMean, hsum]

/-- C7.  After every call of the Bayesian `Trainer.test` on a non-empty
test set, exactly one value is appended to `test_variance`: for the
Monte-Carlo model names it is the mean over batches of
`np.mean(reduce_variance(logits_cpd, axis=0))` — the per-example
variance across the Monte-Carlo samples, averaged over the batch; for
`SNGP` it is the mean over batches of the mean of the diagonal of the
predicted covariance matrix; for every other model name it is
exactly `0`. -/
theorem claim_C7_test_variance (name : String) (isCoxPH : Bool) (n : Nat)
    (batches : List (Nat → ModelOutput)) (hne : batches ≠ []) :
    (name ∈ mcNames →
      testVarianceAppend name isCoxPH n batches =
        some (listMean (batches.map (fun b =>
          listMean (colVars (mcSamples name b n)))))) ∧
    (name = "SNGP" →
      testVarianceAppend name isCoxPH n batches =
        some (listMean (batches.map (fun b => listMean (b 0).covDiag)))) ∧
    (name ∉ mcNames → name ≠ "SNGP" →
      testVarianceAppend name isCoxPH n batches = some 0) := by
  have hlen : 0 < (batches.map (fun b =>
      (testBatchSim name isCoxPH n b).variance)).length := by
    simp [List.length_pos]
    exact hne
  refine ⟨?_, ?_, ?_⟩
  · intro hmc
    have hv : ∀ b : Nat → ModelOutput,
        (testBatchSim name isCoxPH n b).variance =
          listMean (colVars (mcSamples name b n)) := by
      intro b
      cases isCoxPH <;> simp [testBatchSim, hmc, mcSamples]
    have hmap : batches.map (fun b => (testBatchSim name isCoxPH n b).variance) =
        batches.map (fun b => listMean (colVars (mcSamples name b n))) :=
      List.map_congr_left (fun b _ => hv b)
    simp only [testVarianceAppend, hlen, if_pos, hmap]
    simp [List.length_pos, hne]
  · intro hs
    subst hs
    have hv : ∀ b : Nat → ModelOutput,
        (testBatchSim "SNGP" isCoxPH n b).variance = listMean (b 0).covDiag := by
      intro b
      simp [testBatchSim, mcNames]
    have hmap : batches.map (fun b => (testBatchSim "SNGP" isCoxPH n b).variance) =
        batches.map (fun b => listMean (b 0).covDiag) :=
      List.map_congr_left (fun b _ => hv b)
    simp only [testVarianceAppend, hlen, if_pos, hmap]
    simp [List.length_pos, hne]
  · intro hmc hs
    simp only [testVarianceAppend, hlen, if_pos]
    have hz : listMean (batches.map (fun b =>
        (testBatchSim name isCoxPH n b).variance)) = 0 := by
      apply listMean_zeroes
      intro x hx
      simp only [List.mem_map] at hx
      obtain ⟨b, _, hb⟩ := hx
      rw [← hb]
      simp [testBatchSim, hmc, hs]
    rw [hz]

theorem claim_C7_test_variance_witness :
    testVarianceAppend "MLP" true 2 [oracle0] = some 0 :=
  (claim_C7_test_variance "MLP" true 2 [oracle0] (by simp)).2.2
    (by decide) (by decide)

/-! ## Gradient application (claim C5)

Both `Trainer` classes run, per training batch, exactly the two
statements `grads = tape.gradient(loss, self.model.trainable_weights)`
and `self.optimizer.apply_gradients(...)`
(`baysurv_trainer.py` lines 94-96, `model_trainer.py` lines 52-54);
`validate` and `test` only call the model with `training=False` and
never touch the optimizer, which in TensorFlow leaves the trainable
weights unchanged.  The embedding threads the weight value `w` together
with a counter of `apply_gradients` calls through the loop; `grad` and
`app` abstract `tape.gradient` and `optimizer.apply_gradients`. -/

/-- One training batch: compute the gradient of this batch's loss at
the current weights and apply it through the optimizer, once. -/
def trainBatchStep {W G B : Type} (grad : W → B → G) (app : W → G → W)
    (p : W × Nat) (b : B) : W × Nat :=
  (app p.1 (grad p.1 b), p.2 + 1)

/-- The batch loop of `train` over one epoch's batches. -/
def trainEpochWeights {W G B : Type} (grad : W → B → G) (app : W → G → W)
    (bs : List B) (p : W × Nat) : W × Nat :=
  bs.foldl (trainBatchStep grad app) p

/-- `validate`: forward passes only — no gradient tape, no optimizer
call, trainable weights unchanged. -/
def validateWeights {W : Type} (p : W × Nat) : W × Nat := p

/-- `test`: forward passes only — trainable weights unchanged. -/
def testWeights {W : Type} (p : W × Nat) : W × Nat := p

/-- The weight evolution of the epoch loop (both trainer classes have
this shape; `epochs` is the list of executed epoch numbers and
`trainB e` the training batches of epoch `e`). -/
def runWeights {W G B : Type} (grad : W → B → G) (app : W → G → W)
    (trainB : Nat → List B) (hasValid hasTest : Bool) :
    List Nat → W × Nat → W × Nat
  | [], p => p
  | e :: rest, p =>
      let p1 := trainEpochWeights grad app (trainB e) p
      let p2 := if hasValid then validateWeights p1 else p1
      let p3 := if hasTest then testWeights p2 else p2
      runWeights grad app trainB hasValid hasTest rest p3

theorem trainEpochWeights_eq {W G B : Type} (grad : W → B → G)
    (app : W → G → W) :
    ∀ (bs : List B) (p : W × Nat),
      trainEpochWeights grad app bs p =
        (bs.foldl (fun w b => app w (grad w b)) p.1, p.2 + bs.length) := by
  intro bs
  induction bs with
  | nil => intro p; simp [trainEpochWeights]
  | cons b t ih =>
      intro p
      simp [trainEpochWeights, trainBatchStep] at *
      rw [ih]
      simp
      omega

/-- C5.  Over any run of the epoch loop, the final weights are exactly
the result of applying, for each training batch in order, the
optimizer update with that batch's gradient taken at the then-current
weights, and the optimizer is invoked exactly once per training batch
(`apply_gradients` count = total number of training batches); the
`validate` and `test` phases change neither the weights nor the
count. -/
theorem claim_C5_gradients (W G B : Type) (grad : W → B → G)
    (app : W → G → W) (trainB : Nat → List B) (hasValid hasTest : Bool)
    (epochs : List Nat) (w0 : W) :
    runWeights grad app trainB hasValid hasTest epochs (w0, 0) =
      ((epochs.flatMap trainB).foldl (fun w b => app w (grad w b)) w0,
        (epochs.flatMap trainB).length) := by
  suffices h : ∀ (es : List Nat) (p : W × Nat),
      runWeights grad app trainB hasValid hasTest es p =
        ((es.flatMap trainB).foldl (fun w b => app w (grad w b)) p.1,
          p.2 + (es.flatMap trainB).length) by
    rw [h epochs (w0, 0)]
    simp
  intro es
  induction es with
  | nil => intro p; simp [runWeights]
  | cons e rest ih =>
      intro p
      simp only [runWeights, trainEpochWeights_eq, validateWeights,
        testWeights, ite_self, List.flatMap_cons, List.foldl_append,
        List.length_append]
      rw [ih]
      simp
      omega

/-! ## The SOTA results script (`train_sota_std_models.py`, claim C6)

The script loops over six datasets and the three model names
`Cox`, `CoxNet`, `RSF`, appending one row to `results` per
(dataset, model) pair and finally writing `sota_std_results.csv`.
The survival metrics themselves are library calls
(`concordance_index_censored`, `concordance_index_ipcw`,
`integrated_brier_score`, the `CoxPHLoss`, `np.percentile`) evaluated
on the fitted models; `SotaEnv` carries their values as abstract
functions of the dataset and model names.  `np.nan` (the `TestLoss` of
models outside `["Cox", "CoxNet"]`, line 112) is modelled as `none`. -/

/-- `DATASETS` (line 27). -/
def sotaDatasets : List String :=
  ["WHAS500", "SEER", "GBSG2", "FLCHAIN", "SUPPORT", "METABRIC"]

/-- `MODEL_NAMES` (line 28). -/
def sotaModelNames : List String :=
  ["Cox", "CoxNet", "RSF"]

/-- Library-computed quantities, per dataset and model name:
the Cox partial-likelihood loss on the test predictions, the censored
concordance index, the IPCW time-dependent concordance, the integrated
Brier score as a function of the evaluation time grid, the 10th/90th
percentiles of the test times, and the wall-clock training/test
times. -/
structure SotaEnv where
  coxLoss : String → String → ℚ
  cIndex : String → String → ℚ
  cTd : String → String → ℚ
  ibs : String → String → List ℚ → ℚ
  pct10 : String → ℚ
  pct90 : String → ℚ
  fitTime : String → String → ℚ
  predTime : String → String → ℚ

/-- `np.arange(lo, hi)` with unit step over exact rationals. -/
def arangeQ (lo hi : ℚ) : List ℚ :=
  (List.range (Int.toNat ⌈hi - lo⌉)).map (fun k => lo + (k : ℚ))

/-- One row of the `results` dataframe (lines 140-144). -/
structure ResultRow where
  testLoss : Option ℚ
  testCI : ℚ
  testCTD : ℚ
  testIBS : ℚ
  trainTime : ℚ
  testTime : ℚ
  modelName : String
  datasetName : String
deriving DecidableEq, Repr

/-- The row recorded for model `m` on dataset `d` (lines 95-145):
`TestLoss` is the CoxPH loss for `Cox`/`CoxNet` and `np.nan` (`none`)
otherwise (lines 107-112); the IBS is evaluated on the grid
`np.arange(lower, upper + 1)` where `lower`/`upper` are the 10th/90th
percentiles of the test times (lines 89-90, 136-137). -/
def mkRow (env : SotaEnv) (d m : String) : ResultRow :=
  let times := arangeQ (env.pct10 d) (env.pct90 d + 1)
  { testLoss := if m = "Cox" ∨ m = "CoxNet" then some (env.coxLoss d m) else none
    testCI := env.cIndex d m
    testCTD := env.cTd d m
    testIBS := env.ibs d m times
    trainTime := env.fitTime d m
    testTime := env.predTime d m
    modelName := m
    datasetName := d }

/-- All rows accumulated by the double loop of the script. -/
def sotaRows (env : SotaEnv) : List ResultRow :=
  sotaDatasets.flatMap (fun d => sotaModelNames.map (fun m => mkRow env d m))

/-- The file the rows are written to (line 152). -/
def sotaResultsFileName : String := "sota_std_results.csv"

/-- An environment with all library values set to zero, used for the
concrete counterexample. -/
def sotaEnv0 : SotaEnv :=
  { coxLoss := fun _ _ => 0
    cIndex := fun _ _ => 0
    cTd := fun _ _ => 0
    ibs := fun _ _ _ => 0
    pct10 := fun _ => 0
    pct90 := fun _ => 0
    fitTime := fun _ _ => 0
    predTime := fun _ _ => 0 }

/-- Counterexample to C6 as stated: the row recorded for `RSF` does not
contain the test CoxPH loss — its `TestLoss` is `np.nan` (`none`),
because the loss of lines 107-112 is only computed for `Cox` and
`CoxNet`. -/
theorem claim_C6_counterexample :
    "RSF" ∈ sotaModelNames ∧ "WHAS500" ∈ sotaDatasets ∧
    mkRow sotaEnv0 "WHAS500" "RSF" ∈ sotaRows sotaEnv0 ∧
    (mkRow sotaEnv0 "WHAS500" "RSF").testLoss = none ∧
    (mkRow sotaEnv0 "WHAS500" "RSF").testLoss ≠
      some (sotaEnv0.coxLoss "WHAS500" "RSF") := by
  refine ⟨by decide, by decide, ?_, by simp [mkRow], by simp [mkRow]⟩
  rw [sotaRows]
  refine List.mem_flatMap.2 ⟨"WHAS500", by decide, ?_⟩
  exact List.mem_map.2 ⟨"RSF", by decide, rfl⟩

/-- C6 as amended (the amendment concerns only the `TestLoss` column:
it holds the test CoxPH loss for `Cox` and `CoxNet` and `np.nan` for
`RSF`).  For each of the six datasets and each of the three models,
the script records exactly one results row; that row carries the
censored concordance index, the IPCW time-dependent concordance, the
integrated Brier score evaluated on the unit-step grid from the 10th
to the 90th percentile of the test times, and the training and test
wall-clock times; and the rows are written to `sota_std_results.csv`. -/
theorem claim_C6_sota_rows (env : SotaEnv) (d m : String)
    (hd : d ∈ sotaDatasets) (hm : m ∈ sotaModelNames) :
    (sotaRows env).countP
      (fun r => r.datasetName == d && r.modelName == m) = 1 ∧
    mkRow env d m ∈ sotaRows env ∧
    (mkRow env d m).testLoss =
      (if m = "Cox" ∨ m = "CoxNet" then some (env.coxLoss d m) else none) ∧
    (mkRow env d m).testCI = env.cIndex d m ∧
    (mkRow env d m).testCTD = env.cTd d m ∧
    (mkRow env d m).testIBS =
      env.ibs d m (arangeQ (env.pct10 d) (env.pct90 d + 1)) ∧
    (mkRow env d m).trainTime = env.fitTime d m ∧
    (mkRow env d m).testTime = env.predTime d m ∧
    sotaResultsFileName = "sota_std_results.csv" := by
  refine ⟨?_, ?_, rfl, rfl, rfl, rfl, rfl, rfl, rfl⟩
  · fin_cases hd <;> fin_cases hm <;> rfl
  · rw [sotaRows]
    exact List.mem_flatMap.2 ⟨d, hd, List.mem_map.2 ⟨m, hm, rfl⟩⟩

theorem claim_C6_sota_rows_witness :
    (sotaRows sotaEnv0).countP
      (fun r => r.datasetName == "SEER" && r.modelName == "RSF") = 1 :=
  (claim_C6_sota_rows sotaEnv0 "SEER" "RSF" (by decide) (by decide)).1

/-! ## `BaseDataLoader.prepare_data` (`data_loader.py` lines 45-71, claim C8)

`train_test_split(X, y, train_size=ts, random_state=0)` permutes the
rows and returns `(train, test)` where the test part is the first
`n - floor(ts * n)` permuted rows and the train part the remaining
`floor(ts * n)`; with `test_size=0.5` the test part is the first
`ceil(0.5 * m)` permuted rows.  The fixed `random_state=0` shuffles are
abstracted as permutation functions `perm1`/`perm2`; the `Preprocessor`
is abstracted as `fit`, which builds a row transformer from the rows it
was fitted on.  Rows are `(features, label)` pairs. -/

/-- `sklearn.model_selection.train_test_split` restricted to what the
call sites use: permute, put the first `nTest` rows in the test part
and the rest in the train part; returns `(train, test)`. -/
def ttsSplit {γ : Type} (perm : List γ → List γ) (l : List γ)
    (nTest : Nat) : List γ × List γ :=
  let p := perm l
  (p.drop nTest, p.take nTest)

/-- Training rows of `prepare_data`: first split with
`train_size = test_size`, so the train part has
`floor(test_size * n)` rows. -/
def c8TrainRows {α β : Type} (perm1 : List (α × β) → List (α × β))
    (data : List (α × β)) (test_size : ℚ) : List (α × β) :=
  (ttsSplit perm1 data
    (data.length - (⌊test_size * (data.length : ℚ)⌋).toNat)).1

/-- Remainder rows (`X_rem`/`y_rem`) of the first split. -/
def c8RemRows {α β : Type} (perm1 : List (α × β) → List (α × β))
    (data : List (α × β)) (test_size : ℚ) : List (α × β) :=
  (ttsSplit perm1 data
    (data.length - (⌊test_size * (data.length : ℚ)⌋).toNat)).2

/-- Validation rows: train part of the second split
(`test_size=0.5`). -/
def c8ValidRows {α β : Type} (perm1 perm2 : List (α × β) → List (α × β))
    (data : List (α × β)) (test_size : ℚ) : List (α × β) :=
  (ttsSplit perm2 (c8RemRows perm1 data test_size)
    (⌈(1 : ℚ) / 2 * ((c8RemRows perm1 data test_size).length : ℚ)⌉).toNat).1

/-- Test rows: test part of the second split (`test_size=0.5`). -/
def c8TestRows {α β : Type} (perm1 perm2 : List (α × β) → List (α × β))
    (data : List (α × β)) (test_size : ℚ) : List (α × β) :=
  (ttsSplit perm2 (c8RemRows perm1 data test_size)
    (⌈(1 : ℚ) / 2 * ((c8RemRows perm1 data test_size).length : ℚ)⌉).toNat).2

/-- `BaseDataLoader.prepare_data(test_size)` (lines 45-71): split off
the training set with `train_size = test_size`, split the remainder in
half into validation and test sets, fit the preprocessor on the
training split only, transform all three splits, and return the six
arrays `(X_train, X_valid, X_test, y_train, y_valid, y_test)`. -/
def prepare_data {α β τ : Type} (perm1 perm2 : List (α × β) → List (α × β))
    (fit : List α → (α → τ)) (data : List (α × β)) (test_size : ℚ) :
    List τ × List τ × List τ × List β × List β × List β :=
  let train := c8TrainRows perm1 data test_size
  let validRows := c8ValidRows perm1 perm2 data test_size
  let testRows := c8TestRows perm1 perm2 data test_size
  let transformer := fit (train.map Prod.fst)
  ((train.map Prod.fst).map transformer,
   (validRows.map Prod.fst).map transformer,
   (testRows.map Prod.fst).map transformer,
   train.map Prod.snd,
   validRows.map Prod.snd,
   testRows.map Prod.snd)

/-- C8.  `prepare_data` uses its `test_size` argument as the train
fraction: the training split has `floor(test_size * n)` rows (with the
default `test_size = 0.7`, 70% of the rows), and the remaining rows
are split in half (`ceil(m/2)` test rows, the rest validation); the
preprocessor is fitted on the training split only and the resulting
transformer is applied to all three splits; and the method returns six
arrays `(X_train, X_valid, X_test, y_train, y_valid, y_test)`, not
four. -/
theorem claim_C8_prepare_data {α β τ : Type}
    (perm1 perm2 : List (α × β) → List (α × β)) (fit : List α → (α → τ))
    (data : List (α × β)) (test_size : ℚ)
    (hts0 : 0 ≤ test_size) (hts1 : test_size ≤ 1)
    (hp1 : ∀ l, (perm1 l).length = l.length)
    (hp2 : ∀ l, (perm2 l).length = l.length) :
    (c8TrainRows perm1 data test_size).length =
      (⌊test_size * (data.length : ℚ)⌋).toNat ∧
    (c8RemRows perm1 data test_size).length =
      data.length - (⌊test_size * (data.length : ℚ)⌋).toNat ∧
    (c8TestRows perm1 perm2 data test_size).length =
      (⌈(1 : ℚ) / 2 * (((data.length : Nat) -
        (⌊test_size * (data.length : ℚ)⌋).toNat : Nat) : ℚ)⌉).toNat ∧
    (c8ValidRows perm1 perm2 data test_size).length =
      ((data.length : Nat) - (⌊test_size * (data.length : ℚ)⌋).toNat) -
        (c8TestRows perm1 perm2 data test_size).length ∧
    prepare_data perm1 perm2 fit data test_size =
      (((c8TrainRows perm1 data test_size).map Prod.fst).map
          (fit ((c8TrainRows perm1 data test_size).map Prod.fst)),
        ((c8ValidRows perm1 perm2 data test_size).map Prod.fst).map
          (fit ((c8TrainRows perm1 data test_size).map Prod.fst)),
        ((c8TestRows perm1 perm2 data test_size).map Prod.fst).map
          (fit ((c8TrainRows perm1 data test_size).map Prod.fst)),
        (c8TrainRows perm1 data test_size).map Prod.snd,
        (c8ValidRows perm1 perm2 data test_size).map Prod.snd,
        (c8TestRows perm1 perm2 data test_size).map Prod.snd) := by
  have hn0 : (0 : ℚ) ≤ (data.length : ℚ) := by positivity
  have hfloor_le : ⌊test_size * (data.length : ℚ)⌋ ≤ (data.length : Int) := by
    have h1 : test_size * (data.length : ℚ) ≤ (data.length : ℚ) := by
      nlinarith
    calc ⌊test_size * (data.length : ℚ)⌋ ≤ ⌊(data.length : ℚ)⌋ :=
          Int.floor_le_floor h1
      _ = (data.length : Int) := Int.floor_natCast data.length
  have hfloor_nonneg : 0 ≤ ⌊test_size * (data.length : ℚ)⌋ := by
    apply Int.floor_nonneg.2
    positivity
  have hTrainLen : (c8TrainRows perm1 data test_size).length =
      (⌊test_size * (data.length : ℚ)⌋).toNat := by
    simp [c8TrainRows, ttsSplit, hp1]
    omega
  have hRemLen : (c8RemRows perm1 data test_size).length =
      data.length - (⌊test_size * (data.length : ℚ)⌋).toNat := by
    simp [c8RemRows, ttsSplit, hp1]
  set mRem := data.length - (⌊test_size * (data.length : ℚ)⌋).toNat with hm
  have hceil_le : ⌈(2⁻¹ : ℚ) * (mRem : ℚ)⌉ ≤ (mRem : Int) := by
    have h1 : (2⁻¹ : ℚ) * (mRem : ℚ) ≤ (mRem : ℚ) := by
      have h0 : (0 : ℚ) ≤ (mRem : ℚ) := by positivity
      linarith
    calc ⌈(2⁻¹ : ℚ) * (mRem : ℚ)⌉ ≤ ⌈(mRem : ℚ)⌉ := Int.ceil_le_ceil h1
      _ = (mRem : Int) := Int.ceil_natCast mRem
  have hTestLen : (c8TestRows perm1 perm2 data test_size).length =
      (⌈(1 : ℚ) / 2 * (mRem : ℚ)⌉).toNat := by
    simp [c8TestRows, ttsSplit, hp2, hRemLen, ← hm]
    omega
  have hValidLen : (c8ValidRows perm1 perm2 data test_size).length =
      mRem - (⌈(1 : ℚ) / 2 * (mRem : ℚ)⌉).toNat := by
    simp [c8ValidRows, ttsSplit, hp2, hRemLen, ← hm]
  refine ⟨hTrainLen, hRemLen, hTestLen, ?_, rfl⟩
  rw [hValidLen, hTestLen]

/-- Ten concrete rows used to exercise `claim_C8_prepare_data`. -/
def c8Data : List (ℚ × ℚ) :=
  [(1, 1), (2, 2), (3, 3), (4, 4), (5, 5),
   (6, 6), (7, 7), (8, 8), (9, 9), (10, 10)]

theorem claim_C8_prepare_data_witness :
    (c8TrainRows (α := ℚ) (β := ℚ) id c8Data (7 / 10)).length =
      (⌊(7 / 10 : ℚ) * (c8Data.length : ℚ)⌋).toNat :=
  (claim_C8_prepare_data id id (fun _ => (fun x : ℚ => x)) c8Data (7 / 10)
    (by norm_num) (by norm_num) (fun _ => rfl) (fun _ => rfl)).1

/-! ## The `Trainer` construction in `tune_mlp_model.py` (claim C9)

`model_trainer.Trainer.__init__` (lines 6-7 of `model_trainer.py`)
accepts exactly the keyword parameters below (besides `self`), and has
no `**kwargs`; in Python, calling it with a keyword argument outside
this list raises `TypeError: __init__() got an unexpected keyword
argument ...` before any body code runs. -/

/-- The parameters of `model_trainer.Trainer.__init__`. -/
def modelTrainerInitParams : List String :=
  ["model", "train_dataset", "valid_dataset", "test_dataset",
   "optimizer", "loss_function", "num_epochs"]

/-- The keyword arguments `tune_mlp_model.train_model` passes to
`model_trainer.Trainer` (lines 145-153 of `tune_mlp_model.py`). -/
def tuneMlpTrainerCallKwargs : List String :=
  ["model", "model_type", "train_dataset", "valid_dataset",
   "test_dataset", "optimizer", "loss_function", "num_epochs",
   "event_times"]

/-- Python keyword-call check for a function without `**kwargs`: the
call raises `TypeError` iff some supplied keyword is not a declared
parameter. -/
def callRaisesTypeError (params args : List String) : Bool :=
  args.any (fun a => !(params.contains a))

/-- C9.  The `Trainer` construction in `tune_mlp_model.train_model`
always raises `TypeError`: it passes the keyword arguments
`model_type` and `event_times`, neither of which
`model_trainer.Trainer.__init__` accepts, so every invocation of
`train_model` that reaches the construction fails and the tuning
cross-validation loop can never complete a training run. -/
theorem claim_C9_tune_mlp_type_error :
    callRaisesTypeError modelTrainerInitParams tuneMlpTrainerCallKwargs = true ∧
    "model_type" ∈ tuneMlpTrainerCallKwargs ∧
    "model_type" ∉ modelTrainerInitParams ∧
    "event_times" ∈ tuneMlpTrainerCallKwargs ∧
    "event_times" ∉ modelTrainerInitParams := by
  decide

/-! ## `map_model_name` (`print_sota_calibration_results.py` lines 5-22, claim C10)

The Python function is a chain of independent `if` statements, each
reassigning `model_name`; the `dcm` branch (line 17) reads
`model_name == "Deep Cox Mixtures"` — an equality comparison whose
result is discarded, not an assignment — so `"dcm"` passes through
unchanged. -/

/-- `map_model_name`, translated statement by statement.  The comment
marks line 17, where the source compares instead of assigning. -/
def map_model_name (model_name0 : String) : String :=
  let model_name := if model_name0 = "cox" then "CoxPH" else model_name0
  let model_name := if model_name = "coxnet" then "CoxNet" else model_name
  let model_name := if model_name = "coxboost" then "CoxBoost" else model_name
  let model_name := if model_name = "rsf" then "Random Survival Forest" else model_name
  let model_name := if model_name = "dsm" then "Deep Survival Machines" else model_name
  -- line 17: `model_name == "Deep Cox Mixtures"` is evaluated and
  -- discarded; `model_name` is left unchanged
  let model_name := if model_name = "baycox" then "BayesianCox" else model_name
  let model_name := if model_name = "baymtlr" then "BayesianMTLR" else model_name
  model_name

/-- The mapping C10 describes, written from the claim: every
recognised key except `dcm` goes to its display name, `dcm` and every
unrecognised name are returned unchanged. -/
def mapModelNameSpec (model_name : String) : String :=
  if model_name = "cox" then "CoxPH"
  else if model_name = "coxnet" then "CoxNet"
  else if model_name = "coxboost" then "CoxBoost"
  else if model_name = "rsf" then "Random Survival Forest"
  else if model_name = "dsm" then "Deep Survival Machines"
  else if model_name = "baycox" then "BayesianCox"
  else if model_name = "baymtlr" then "BayesianMTLR"
  else model_name

/-- C10.  `map_model_name` returns `"dcm"` unchanged (its `dcm` branch
performs an equality comparison rather than an assignment), maps each
of the other recognised keys to its display name, and returns every
unrecognised name unchanged — i.e. it realizes `mapModelNameSpec`,
in which `"dcm"` has no clause. -/
theorem claim_C10_map_model_name (m : String) :
    map_model_name m = mapModelNameSpec m := by
  by_cases h1 : m = "cox"
  · subst h1; decide
  by_cases h2 : m = "coxnet"
  · subst h2; decide
  by_cases h3 : m = "coxboost"
  · subst h3; decide
  by_cases h4 : m = "rsf"
  · subst h4; decide
  by_cases h5 : m = "dsm"
  · subst h5; decide
  by_cases h6 : m = "baycox"
  · subst h6; decide
  by_cases h7 : m = "baymtlr"
  · subst h7; decide
  simp [map_model_name, mapModelNameSpec, h1, h2, h3, h4, h5, h6, h7]
